import Mathlib

/-!
Verification of the ops-sim chaos-injection middleware.

This file shallowly embeds the core of the repository:
* `MessageUtils` (envelope creation, validation, checksum) from
  `src/network/message-utils.ts`,
* the bounded seen-set of `KafkaConsumer.handleMessage` from
  `src/network/kafka-consumer.ts`,
* the `ChaosProxy` engine (seeded generator, drop/duplicate/delay/reorder
  decisions, reorder buffer, config/stats store) from
  `src/network/chaos-proxy.ts`,
and proves the testable properties stated in the specification.

Modelling conventions:
* JavaScript runtime values that can appear in a `JSON.parse`d envelope are
  modelled by `JSValue`; an absent object key (which reads as `undefined`)
  is modelled by `Option JSValue` with `none` for `undefined`.
* JSON numerals are modelled as integers (`Int`); the claims under
  verification never depend on non-integer numerals, and JavaScript's
  number-to-string conversion agrees with integer printing on this fragment.
* A JavaScript function that can throw is modelled with `Option`/`Except`:
  `none` (or `.error`) is a thrown exception.
* Machine numbers: the 32-bit wrap-around in the checksum uses explicit
  `% 2^32` arithmetic on `Int`; the seeded generator state is a `Nat` and its
  draws are exact rationals `state / 233280 : ℚ`.
-/

namespace OpsSim

/-! ## JavaScript value model -/

/-- A JSON-representable JavaScript value (what `JSON.parse` can produce).
Numerals are modelled as integers, see the header. -/
inductive JSValue where
  | jnull
  | jbool (b : Bool)
  | jnum (n : Int)
  | jstr (s : String)
  | jarr (elems : List JSValue)
  | jobj (fields : List (String × JSValue))

/-- JavaScript truthiness of a possibly-absent value: `undefined`, `null`,
`false`, `0` and `""` are falsy; arrays and objects are truthy. -/
def truthy : Option JSValue → Bool
  | none => false
  | some .jnull => false
  | some (.jbool b) => b
  | some (.jnum n) => n != 0
  | some (.jstr s) => s != ""
  | some (.jarr _) => true
  | some (.jobj _) => true

/-- JavaScript `ToNumber` on a string, for the fragment used by the claims:
`""` is `0`, an optional sign followed by decimal digits is that integer,
anything else is `NaN` (`none`). -/
def strToNumber (s : String) : Option Int :=
  if s = "" then some 0
  else if s.data.all Char.isDigit then some (s.toNat!)
  else if s.startsWith "-" ∧ (s.drop 1).data.all Char.isDigit ∧ s.length > 1 then
    some (-(s.drop 1).toNat!)
  else none

/-- JavaScript `ToNumber` of a value, `none` modelling `NaN`.  Arrays and
objects coerce through `ToPrimitive`; only the empty array (which coerces to
`0`) is modelled exactly, other composites are mapped to `NaN`. -/
def jsToNumber : JSValue → Option Int
  | .jnull => some 0
  | .jbool b => some (if b then 1 else 0)
  | .jnum n => some n
  | .jstr s => strToNumber s
  | .jarr [] => some 0
  | .jarr (_ :: _) => none
  | .jobj _ => none

/-- The JavaScript comparison `x <= 0` on a possibly-absent value: a `NaN`
operand (in particular `undefined`) makes the comparison false. -/
def jsLeZero : Option JSValue → Bool
  | none => false
  | some v =>
    match jsToNumber v with
    | none => false
    | some n => n ≤ 0

/-- Strict equality `x === (s : string)` of a possibly-absent value with a
known string. -/
def jsStrEqStr (x : Option JSValue) (s : String) : Bool :=
  match x with
  | some (.jstr t) => t == s
  | _ => false

/-- `SameValueZero`, the equality used by JavaScript `Set` membership,
restricted to primitives.  Two composite values parsed from distinct JSON
texts are distinct references, so they never compare equal. -/
def jsSameValue : JSValue → JSValue → Bool
  | .jnull, .jnull => true
  | .jbool a, .jbool b => a == b
  | .jnum a, .jnum b => a == b
  | .jstr a, .jstr b => a == b
  | _, _ => false

/-! ## JSON serialization (`JSON.stringify`) -/

/-- Escape one character as inside a JSON string literal. -/
def jsonEscapeChar (c : Char) : String :=
  if c = '"' then "\\\""
  else if c = '\\' then "\\\\"
  else if c = '\n' then "\\n"
  else if c = '\r' then "\\r"
  else if c = '\t' then "\\t"
  else if c = '\x08' then "\\b"
  else if c = '\x0c' then "\\f"
  else if c.toNat < 32 then
    "\\u00" ++ String.mk [Nat.digitChar (c.toNat / 16), Nat.digitChar (c.toNat % 16)]
  else String.singleton c

/-- A JSON string literal with quotes and escapes. -/
def jsonQuote (s : String) : String :=
  "\"" ++ String.join (s.data.map jsonEscapeChar) ++ "\""

mutual

/-- `JSON.stringify` of a defined JSON value (total on `JSValue`). -/
def jsonStringify : JSValue → String
  | .jnull => "null"
  | .jbool b => if b then "true" else "false"
  | .jnum n => toString n
  | .jstr s => jsonQuote s
  | .jarr es => "[" ++ jsonStringifyElems es ++ "]"
  | .jobj fs => "\x7b" ++ jsonStringifyFields fs ++ "\x7d"

/-- Comma-joined serialization of array elements. -/
def jsonStringifyElems : List JSValue → String
  | [] => ""
  | [v] => jsonStringify v
  | v :: rest => jsonStringify v ++ "," ++ jsonStringifyElems rest

/-- Comma-joined serialization of object fields, in insertion order. -/
def jsonStringifyFields : List (String × JSValue) → String
  | [] => ""
  | [(k, v)] => jsonQuote k ++ ":" ++ jsonStringify v
  | (k, v) :: rest => jsonQuote k ++ ":" ++ jsonStringify v ++ "," ++ jsonStringifyFields rest

end

/-! ## MessageUtils: checksum and validation (`message-utils.ts`) -/

/-- JavaScript `ToInt32`: wrap an integer into `[-2^31, 2^31)`. -/
def toInt32 (x : Int) : Int :=
  let m := x % 4294967296
  if m < 2147483648 then m else m - 4294967296

/-- One step of the rolling checksum:
`hash = ((hash << 5) - hash) + char; hash = hash & hash`. -/
def hashStep (h : Int) (c : Int) : Int :=
  toInt32 (toInt32 (h * 32) - h + c)

/-- The checksum accumulator folded over the UTF-16 code units of the
serialized payload (exact for the basic multilingual plane). -/
def hashOfString (s : String) : Int :=
  s.data.foldl (fun h c => hashStep h (c.toNat : Int)) 0

/-- JavaScript `Number.prototype.toString(16)` on a 32-bit integer:
lowercase hex digits, a leading `-` for negative values. -/
def toHexString (n : Int) : String :=
  if n < 0 then "-" ++ String.mk (Nat.toDigits 16 n.natAbs)
  else String.mk (Nat.toDigits 16 n.toNat)

/-- `MessageUtils.calculateChecksum`.  The argument is the possibly-absent
`envelope.payload`; `JSON.stringify(undefined)` is `undefined`, and reading
`.length` of it throws, which the `none` result models. -/
def calculateChecksum (payload : Option JSValue) : Option String :=
  match payload with
  | none => none
  | some v => some (toHexString (hashOfString (jsonStringify v)))

/-- An envelope as it arrives from `JSON.parse`: every field may be absent
(`none` models reading an absent key, i.e. `undefined`). -/
structure RawEnvelope where
  messageId : Option JSValue
  sequenceNumber : Option JSValue
  sourceNode : Option JSValue
  destinationNode : Option JSValue
  messageType : Option JSValue
  timestamp : Option JSValue
  payload : Option JSValue
  checksum : Option JSValue

/-- `MessageUtils.validateMessage`.  Returns `some b` for a normal boolean
return and `none` when the call throws (which happens exactly when the
checksum recomputation throws on an `undefined` payload). -/
def validateMessage (e : RawEnvelope) : Option Bool :=
  if ¬ truthy e.messageId ∨ ¬ truthy e.sourceNode ∨ ¬ truthy e.messageType then
    some false
  else if jsLeZero e.sequenceNumber then
    some false
  else
    match calculateChecksum e.payload with
    | none => none
    | some expected => some (jsStrEqStr e.checksum expected)

/-! ## MessageUtils: envelope creation and sequence allocation -/

/-- A created envelope (the typed `MessageEnvelope<T>` built by
`createMessage`; its payload is always a defined value). -/
structure MessageEnvelope where
  messageId : String
  sequenceNumber : Nat
  sourceNode : String
  destinationNode : String
  messageType : String
  timestamp : Int
  payload : JSValue
  checksum : String

/-- The process-wide sequence allocator `MessageUtils.sequenceCounters`,
modelled as its lookup-with-default-0 view (`map.get(node) || 0`). -/
def SeqCounters : Type := String → Nat

/-- The allocator at process start: every node reads 0. -/
def initCounters : SeqCounters := fun _ => 0

/-- One `MessageUtils.createMessage` call.  `uuid` and `now` model the
ambient `uuidv4()` and `Date.now()` inputs. -/
def createMessage (ctrs : SeqCounters) (sourceNode messageType : String)
    (payload : JSValue) (destinationNode : Option String)
    (uuid : String) (now : Int) : MessageEnvelope × SeqCounters :=
  let sequenceNumber := ctrs sourceNode + 1
  let envelope : MessageEnvelope :=
    { messageId := uuid
      sequenceNumber := sequenceNumber
      sourceNode := sourceNode
      destinationNode := destinationNode.getD ""
      messageType := messageType
      timestamp := now
      payload := payload
      checksum := toHexString (hashOfString (jsonStringify payload)) }
  (envelope, fun s => if s = sourceNode then sequenceNumber else ctrs s)

/-- `MessageUtils.resetSequenceCounter`: deleting the key makes the next
read see 0. -/
def resetSequenceCounter (ctrs : SeqCounters) (sourceNode : String) : SeqCounters :=
  fun s => if s = sourceNode then 0 else ctrs s

/-- `MessageUtils.getSequenceCounter`. -/
def getSequenceCounter (ctrs : SeqCounters) (sourceNode : String) : Nat :=
  ctrs sourceNode

/-- The arguments of one `createMessage` call. -/
structure CreateCall where
  sourceNode : String
  messageType : String
  payload : JSValue
  destinationNode : Option String
  uuid : String
  now : Int

/-- A call into the `MessageUtils` allocator surface. -/
inductive UtilOp where
  | create (c : CreateCall)
  | reset (node : String)

/-- Run a sequence of allocator operations, collecting created envelopes. -/
def runUtilOps (ctrs : SeqCounters) : List UtilOp → List MessageEnvelope × SeqCounters
  | [] => ([], ctrs)
  | .create c :: rest =>
    let p := createMessage ctrs c.sourceNode c.messageType c.payload
      c.destinationNode c.uuid c.now
    let t := runUtilOps p.2 rest
    (p.1 :: t.1, t.2)
  | .reset node :: rest => runUtilOps (resetSequenceCounter ctrs node) rest

/-! ## KafkaConsumer: bounded seen-set (`kafka-consumer.ts`) -/

/-- One record as it reaches `KafkaConsumer.handleMessage`: the value may be
absent or empty (`noValue`), fail `JSON.parse` (`malformed`, the thrown error
is caught by the surrounding try/catch), or parse into an envelope. -/
inductive InboundRecord where
  | noValue
  | malformed
  | parsed (e : RawEnvelope)

/-- The seen-set transition of one `KafkaConsumer.handleMessage` call:
validate, skip duplicates, insert the message id, and when the size exceeds
`maxSeenIds = 10000` delete the first 1000 entries in insertion order.
A `validateMessage` exception is caught by the try/catch and leaves the set
unchanged.  The handler dispatch does not touch the seen-set. -/
def handleMessageSeen (seen : List JSValue) (r : InboundRecord) : List JSValue :=
  match r with
  | .noValue => seen
  | .malformed => seen
  | .parsed e =>
    match validateMessage e with
    | some true =>
      match e.messageId with
      | none => seen
      | some idv =>
        if seen.any (jsSameValue idv) then seen
        else
          let seen' := seen ++ [idv]
          if seen'.length > 10000 then seen'.drop 1000 else seen'
    | some false => seen
    | none => seen

/-! ## ChaosProxy: configuration, statistics, seeded generator -/

/-- `ChaosConfig` (`types.ts`).  Rates are exact rationals, the delay bound
and seed are integers as the specification requires. -/
structure ChaosConfig where
  dropRate : ℚ
  duplicateRate : ℚ
  maxDelayMs : Int
  reorderWindow : Nat
  seed : Nat
  enabled : Bool

/-- `MessageStats` (`types.ts`): six counters. -/
structure MessageStats where
  sent : Nat
  received : Nat
  dropped : Nat
  duplicated : Nat
  delayed : Nat
  reordered : Nat

/-- The zeroed statistics record (constructor and `resetStats`). -/
def initStats : MessageStats :=
  { sent := 0, received := 0, dropped := 0, duplicated := 0, delayed := 0, reordered := 0 }

/-- A `Partial<ChaosConfig>` update: each field may be supplied or absent. -/
structure ConfigPatch where
  dropRate : Option ℚ
  duplicateRate : Option ℚ
  maxDelayMs : Option Int
  reorderWindow : Option Nat
  seed : Option Nat
  enabled : Option Bool

/-- The all-absent patch (`new ChaosProxy()` with no argument). -/
def emptyPatch : ConfigPatch :=
  { dropRate := none, duplicateRate := none, maxDelayMs := none,
    reorderWindow := none, seed := none, enabled := none }

/-- Spread-merge `{...base, ...p}` of a patch over a full config. -/
def mergeConfig (base : ChaosConfig) (p : ConfigPatch) : ChaosConfig :=
  { dropRate := p.dropRate.getD base.dropRate
    duplicateRate := p.duplicateRate.getD base.duplicateRate
    maxDelayMs := p.maxDelayMs.getD base.maxDelayMs
    reorderWindow := p.reorderWindow.getD base.reorderWindow
    seed := p.seed.getD base.seed
    enabled := p.enabled.getD base.enabled }

/-- The defaults hard-coded in the `ChaosProxy` constructor. -/
def defaultConfig : ChaosConfig :=
  { dropRate := 1/10, duplicateRate := 1/20, maxDelayMs := 1000,
    reorderWindow := 5, seed := 12345, enabled := true }

/-- One step of the seeded generator from `createSeededRandom`:
`state = (state * 9301 + 49297) % 233280`. -/
def rngStep (s : Nat) : Nat := (s * 9301 + 49297) % 233280

/-- One draw: step the state, return `state / 233280` and the new state. -/
def rngDraw (s : Nat) : ℚ × Nat :=
  let s' := rngStep s
  ((s' : ℚ) / 233280, s')

/-- The full mutable state of one `ChaosProxy` instance: live config, stats,
generator state (the closure variable of `createSeededRandom`), and the
reorder buffer. -/
structure ChaosState where
  config : ChaosConfig
  stats : MessageStats
  rng : Nat
  messageBuffer : List MessageEnvelope

/-- The `ChaosProxy` constructor: merge the supplied fields over the
defaults, zero the stats, seed the generator from the merged seed. -/
def mkChaosProxy (p : ConfigPatch) : ChaosState :=
  let cfg := mergeConfig defaultConfig p
  { config := cfg, stats := initStats, rng := cfg.seed, messageBuffer := [] }

/-- `ChaosProxy.updateConfig`: spread-merge the patch, and re-create the
seeded generator exactly when the patch carries a `seed` field. -/
def updateConfig (st : ChaosState) (p : ConfigPatch) : ChaosState :=
  { st with
    config := mergeConfig st.config p
    rng := match p.seed with
      | some s => s
      | none => st.rng }

/-- `ChaosProxy.resetStats`. -/
def resetStats (st : ChaosState) : ChaosState := { st with stats := initStats }

/-! ## ChaosProxy: delay calculation and the send path -/

/-- `ChaosProxy.calculateDelay`: 0 when `maxDelayMs <= 0`; otherwise one
draw decides (at threshold 0.3) whether a second draw picks
`Math.floor(random() * maxDelayMs)`, clamped to be non-negative. -/
def calculateDelay (cfg : ChaosConfig) (rng : Nat) : Int × Nat :=
  if cfg.maxDelayMs ≤ 0 then (0, rng)
  else
    let p := rngDraw rng
    if p.1 < 3/10 then
      let q := rngDraw p.2
      (max 0 ⌊q.1 * (cfg.maxDelayMs : ℚ)⌋, q.2)
    else (0, p.2)

/-- The observable outcome of one `processSendMessage` call: the returned
value (`none` is the dropped-message `null`), whether `sendFn` was invoked
synchronously, and the timer delay of a scheduled duplicate send if one was
scheduled. -/
structure SendOutcome (α : Type) where
  result : Option α
  sentNow : Bool
  dupDelay : Option ℚ

/-- Transport invocations caused by one call: the synchronous send plus a
scheduled duplicate send. -/
def transportInvocations (o : SendOutcome α) : Nat :=
  (if o.sentNow then 1 else 0) + (if o.dupDelay.isSome then 1 else 0)

/-- `ChaosProxy.processSendMessage`.  `sendResult` models the envelope that
a successful `sendFn()` resolves to, and `mathRandom` models the ambient
`Math.random()` draw used only for the duplicate timer delay. -/
def processSendMessage (st : ChaosState) (sendResult : α) (mathRandom : ℚ) :
    ChaosState × SendOutcome α :=
  let st := { st with stats := { st.stats with sent := st.stats.sent + 1 } }
  if ¬ st.config.enabled then
    (st, { result := some sendResult, sentNow := true, dupDelay := none })
  else
    let p := rngDraw st.rng
    if p.1 < st.config.dropRate then
      ({ st with
          rng := p.2
          stats := { st.stats with dropped := st.stats.dropped + 1 } },
       { result := none, sentNow := false, dupDelay := none })
    else
      let q := rngDraw p.2
      if q.1 < st.config.duplicateRate then
        ({ st with
            rng := q.2
            stats := { st.stats with duplicated := st.stats.duplicated + 1 } },
         { result := some sendResult, sentNow := true,
           dupDelay := some (max 1 (50 + mathRandom * 200)) })
      else
        ({ st with rng := q.2 },
         { result := some sendResult, sentNow := true, dupDelay := none })

/-- The detached duplicate-send timer callback: it awaits `sendFn` inside a
try/catch that logs and swallows any failure, so it always completes
normally. -/
def duplicateTask (sendFn : Unit → Except ε α) : Except ε Unit :=
  match sendFn () with
  | .ok _ => .ok ()
  | .error _ => .ok ()

/-- Fold `processSendMessage` over a list of calls, collecting outcomes. -/
def runSends (st : ChaosState) : List (α × ℚ) → ChaosState × List (SendOutcome α)
  | [] => (st, [])
  | (a, r) :: rest =>
    let p := processSendMessage st a r
    let t := runSends p.1 rest
    (t.1, p.2 :: t.2)

/-! ## ChaosProxy: the receive path and the reorder buffer -/

/-- Swap two positions of a list (out-of-range indices leave it unchanged;
in the shuffle both indices are always in range). -/
def listSwap (l : List α) (i j : Nat) : List α :=
  match l.get? i, l.get? j with
  | some a, some b => (l.set i b).set j a
  | _, _ => l

/-- The Fisher–Yates loop of `flushReorderBuffer`: for `i` from
`length - 1` down to 1, draw `j = Math.floor(random() * (i + 1))` and swap.
The first argument of the auxiliary is the current loop index. -/
def fyLoop (arr : List α) : Nat → Nat → List α × Nat
  | 0, rng => (arr, rng)
  | i + 1, rng =>
    let p := rngDraw rng
    let j := (⌊p.1 * ((i + 2 : Nat) : ℚ)⌋).toNat
    fyLoop (listSwap arr (i + 1) j) i p.2

/-- Shuffle a copy of the buffer with the seeded generator. -/
def fisherYates (rng : Nat) (l : List α) : List α × Nat :=
  fyLoop l (l.length - 1) rng

/-- The reordering check
`shuffled.some((msg, idx) => msg.messageId !== buffer[idx]?.messageId)`:
walk the shuffled list against the arrival-order list by index. -/
def mismatchAux : List MessageEnvelope → List MessageEnvelope → Bool
  | [], _ => false
  | _ :: _, [] => true
  | a :: as, b :: bs => (a.messageId != b.messageId) || mismatchAux as bs

/-- One delivery decided by the receive path: the envelope together with the
computed chaos delay (0 means the handler is invoked and awaited inline;
a positive delay means a detached `setTimeout` dispatch). -/
structure Dispatch where
  env : MessageEnvelope
  delay : Int

/-- The delivery loop of `flushReorderBuffer`: one independent delay per
envelope in shuffled order, counting delayed dispatches. -/
def deliverLoop (cfg : ChaosConfig) (rng : Nat) (stats : MessageStats) :
    List MessageEnvelope → List Dispatch × Nat × MessageStats
  | [] => ([], rng, stats)
  | e :: rest =>
    let p := calculateDelay cfg rng
    if p.1 > 0 then
      let t := deliverLoop cfg p.2 { stats with delayed := stats.delayed + 1 } rest
      ({ env := e, delay := p.1 } :: t.1, t.2.1, t.2.2)
    else
      let t := deliverLoop cfg p.2 stats rest
      ({ env := e, delay := 0 } :: t.1, t.2.1, t.2.2)

/-- `ChaosProxy.flushReorderBuffer`: shuffle a copy of the buffer, add the
full batch size to `reordered` when any position changed, deliver every
envelope with an independent delay, clear the buffer. -/
def flushReorderBuffer (st : ChaosState) : ChaosState × List Dispatch :=
  if st.messageBuffer.length = 0 then (st, [])
  else
    let sh := fisherYates st.rng st.messageBuffer
    let stats1 :=
      if mismatchAux sh.1 st.messageBuffer then
        { st.stats with reordered := st.stats.reordered + sh.1.length }
      else st.stats
    let t := deliverLoop st.config sh.2 stats1 sh.1
    ({ st with rng := t.2.1, stats := t.2.2, messageBuffer := [] }, t.1)

/-- `ChaosProxy.processReceiveMessage`. -/
def processReceiveMessage (st : ChaosState) (env : MessageEnvelope) :
    ChaosState × List Dispatch :=
  let st := { st with stats := { st.stats with received := st.stats.received + 1 } }
  if ¬ st.config.enabled then
    (st, [{ env := env, delay := 0 }])
  else if st.config.reorderWindow > 0 then
    let st := { st with messageBuffer := st.messageBuffer ++ [env] }
    if st.messageBuffer.length ≥ st.config.reorderWindow then
      flushReorderBuffer st
    else (st, [])
  else
    let p := calculateDelay st.config st.rng
    if p.1 > 0 then
      ({ st with
          rng := p.2
          stats := { st.stats with delayed := st.stats.delayed + 1 } },
       [{ env := env, delay := p.1 }])
    else
      ({ st with rng := p.2 }, [{ env := env, delay := 0 }])

/-- Fold `processReceiveMessage` over a list of envelopes, collecting every
decided dispatch in order. -/
def runRecvs (st : ChaosState) : List MessageEnvelope → ChaosState × List Dispatch
  | [] => (st, [])
  | e :: rest =>
    let p := processReceiveMessage st e
    let t := runRecvs p.1 rest
    (t.1, p.2 ++ t.2)

/-! ## ChaosProxy: whole-engine event traces -/

/-- One call into the engine: a send (with the result its `sendFn` resolves
to and the ambient `Math.random()` value) or a receive. -/
inductive ChaosEvent (α : Type) where
  | send (sendResult : α) (mathRandom : ℚ)
  | recv (env : MessageEnvelope)

/-- The chaos decision taken for one call, as the specification's
determinism property observes it: drop/duplicate/forward for sends and the
dispatch list (delay values and delivery order) for receives.  The timer
value of a duplicate send is driven by the unseeded `Math.random()` and is
deliberately not part of the decision, only the fact that a duplicate was
scheduled. -/
inductive ChaosDecision (α : Type) where
  | sendDone (result : Option α) (sentNow : Bool) (duplicated : Bool)
  | recvDone (dispatches : List Dispatch)

/-- One engine step together with its observable decision. -/
def chaosStep (st : ChaosState) : ChaosEvent α → ChaosState × ChaosDecision α
  | .send a r =>
    let p := processSendMessage st a r
    (p.1, .sendDone p.2.result p.2.sentNow p.2.dupDelay.isSome)
  | .recv e =>
    let p := processReceiveMessage st e
    (p.1, .recvDone p.2)

/-- The decision trace of a run. -/
def chaosTrace (st : ChaosState) : List (ChaosEvent α) → ChaosState × List (ChaosDecision α)
  | [] => (st, [])
  | ev :: rest =>
    let p := chaosStep st ev
    let t := chaosTrace p.1 rest
    (t.1, p.2 :: t.2)

/-- Erase the ambient `Math.random()` input of an event; two call sequences
are identical in the sense of the determinism property when they agree after
erasure. -/
def stripAmbientRandom : ChaosEvent α → ChaosEvent α
  | .send a _ => .send a 0
  | .recv e => .recv e

/-! ## Concrete fixtures used to instantiate the theorems -/

/-- A concrete envelope fixture. -/
def sampleEnv (id : String) (seq : Nat) : MessageEnvelope :=
  { messageId := id, sequenceNumber := seq, sourceNode := "n", destinationNode := "",
    messageType := "HEARTBEAT", timestamp := 0, payload := JSValue.jnull, checksum := "c" }

/-- A proxy constructed with `reorderWindow = 2` and the other defaults. -/
def sampleWindowProxy : ChaosState :=
  mkChaosProxy { emptyPatch with reorderWindow := some 2 }

/-- The two-envelope batch fed to the window-2 proxy. -/
def sampleBatch : List MessageEnvelope := [sampleEnv "a" 1, sampleEnv "b" 2]

/-! ## Helper lemmas about the seeded generator -/

theorem rngStep_lt (s : Nat) : rngStep s < 233280 :=
  Nat.mod_lt _ (by decide)

theorem rngDraw_nonneg (s : Nat) : 0 ≤ (rngDraw s).1 :=
  div_nonneg (Nat.cast_nonneg _) (by norm_num)

theorem rngDraw_lt_one (s : Nat) : (rngDraw s).1 < 1 := by
  unfold rngDraw
  rw [div_lt_one (by norm_num)]
  exact_mod_cast rngStep_lt s

/-! ## Claim theorems -/

/-- C7: `calculateDelay` returns 0 whenever `maxDelayMs <= 0`; otherwise it
draws `d` from the seeded generator and, exactly when `d < 0.3`, draws a
second value `d2` and returns `floor(d2 * maxDelayMs)` clamped to be
non-negative, and in all other cases returns 0. -/
theorem calculateDelay_spec (cfg : ChaosConfig) (rng : Nat) :
    calculateDelay cfg rng =
      (if cfg.maxDelayMs ≤ 0 then ((0 : Int), rng)
       else if (rngDraw rng).1 < 3/10 then
         (max 0 ⌊(rngDraw (rngDraw rng).2).1 * (cfg.maxDelayMs : ℚ)⌋,
          (rngDraw (rngDraw rng).2).2)
       else (0, (rngDraw rng).2)) ∧
    0 ≤ (calculateDelay cfg rng).1 := by
  refine ⟨rfl, ?_⟩
  by_cases h1 : cfg.maxDelayMs ≤ 0
  · simp [calculateDelay, h1]
  · by_cases h2 : (rngDraw rng).1 < 3/10
    · simp [calculateDelay, h1, h2]
    · simp [calculateDelay, h1, h2]

/-- C9: `updateConfig` shallow-merges the supplied fields over the existing
configuration, leaves every omitted field unchanged, replaces the generator
state exactly when `seed` is supplied, and leaves statistics and the reorder
buffer untouched. -/
theorem updateConfig_frame (st : ChaosState) (p : ConfigPatch) :
    (updateConfig st p).config.dropRate = p.dropRate.getD st.config.dropRate ∧
    (updateConfig st p).config.duplicateRate = p.duplicateRate.getD st.config.duplicateRate ∧
    (updateConfig st p).config.maxDelayMs = p.maxDelayMs.getD st.config.maxDelayMs ∧
    (updateConfig st p).config.reorderWindow = p.reorderWindow.getD st.config.reorderWindow ∧
    (updateConfig st p).config.seed = p.seed.getD st.config.seed ∧
    (updateConfig st p).config.enabled = p.enabled.getD st.config.enabled ∧
    (updateConfig st p).rng = (match p.seed with | some s => s | none => st.rng) ∧
    (updateConfig st p).stats = st.stats ∧
    (updateConfig st p).messageBuffer = st.messageBuffer :=
  ⟨rfl, rfl, rfl, rfl, rfl, rfl, rfl, rfl, rfl⟩

/-- C10: the constructor fills unsupplied fields with the defaults
`dropRate = 0.1`, `duplicateRate = 0.05`, `maxDelayMs = 1000`,
`reorderWindow = 5`, `seed = 12345`, `enabled = true`, zeroes all six
statistics counters, and seeds the generator from the merged seed; with no
configuration at all the result is exactly the default config, so chaos is
active by default with non-zero drop and duplicate rates. -/
theorem constructor_defaults (p : ConfigPatch) :
    (mkChaosProxy p).config.dropRate = p.dropRate.getD (1/10) ∧
    (mkChaosProxy p).config.duplicateRate = p.duplicateRate.getD (1/20) ∧
    (mkChaosProxy p).config.maxDelayMs = p.maxDelayMs.getD 1000 ∧
    (mkChaosProxy p).config.reorderWindow = p.reorderWindow.getD 5 ∧
    (mkChaosProxy p).config.seed = p.seed.getD 12345 ∧
    (mkChaosProxy p).config.enabled = p.enabled.getD true ∧
    (mkChaosProxy p).stats =
      { sent := 0, received := 0, dropped := 0, duplicated := 0,
        delayed := 0, reordered := 0 } ∧
    (mkChaosProxy p).rng = p.seed.getD 12345 ∧
    (mkChaosProxy p).messageBuffer = [] ∧
    (mkChaosProxy emptyPatch).config = defaultConfig ∧
    defaultConfig.enabled = true ∧ defaultConfig.dropRate ≠ 0 ∧
    defaultConfig.duplicateRate ≠ 0 := by
  refine ⟨rfl, rfl, rfl, rfl, rfl, rfl, rfl, rfl, rfl, rfl, rfl, ?_, ?_⟩ <;> norm_num [defaultConfig]

/-- C2 (code bug): `validateMessage` is claimed never to raise, but on an
envelope whose `payload` key is absent (every other field well-formed) the
checksum recomputation evaluates `JSON.stringify(undefined).length`, which
throws a `TypeError`; the model returns `none` (= exception) there. -/
theorem validateMessage_throws_on_absent_payload :
    validateMessage
      { messageId := some (.jstr "m1")
        sequenceNumber := some (.jnum 1)
        sourceNode := some (.jstr "node-a")
        destinationNode := some (.jstr "")
        messageType := some (.jstr "HEARTBEAT")
        timestamp := some (.jnum 0)
        payload := none
        checksum := some (.jstr "0") } = none := by
  rfl

/-! ## C1: determinism of the decision trace -/

theorem processSend_ambient_independent (st : ChaosState) (a : α) (r r' : ℚ) :
    (processSendMessage st a r).1 = (processSendMessage st a r').1 ∧
    (processSendMessage st a r).2.result = (processSendMessage st a r').2.result ∧
    (processSendMessage st a r).2.sentNow = (processSendMessage st a r').2.sentNow ∧
    (processSendMessage st a r).2.dupDelay.isSome
      = (processSendMessage st a r').2.dupDelay.isSome := by
  unfold processSendMessage
  dsimp only
  split_ifs <;> simp

theorem chaosStep_ambient (st : ChaosState) (e e' : ChaosEvent α)
    (h : stripAmbientRandom e = stripAmbientRandom e') :
    (chaosStep st e).1 = (chaosStep st e').1 ∧
    (chaosStep st e).2 = (chaosStep st e').2 := by
  cases e with
  | send a r =>
    cases e' with
    | send a' r' =>
      obtain rfl : a = a' := by simpa [stripAmbientRandom] using h
      have hp := processSend_ambient_independent st a r r'
      refine ⟨hp.1, ?_⟩
      simp [chaosStep, hp.2.1, hp.2.2.1, hp.2.2.2]
    | recv _ => simp [stripAmbientRandom] at h
  | recv env =>
    cases e' with
    | send _ _ => simp [stripAmbientRandom] at h
    | recv env' =>
      obtain rfl : env = env' := by simpa [stripAmbientRandom] using h
      exact ⟨rfl, rfl⟩

theorem chaosTrace_ambient (evs : List (ChaosEvent α)) :
    ∀ (evs' : List (ChaosEvent α)) (st : ChaosState),
      evs.map stripAmbientRandom = evs'.map stripAmbientRandom →
      (chaosTrace st evs).2 = (chaosTrace st evs').2 := by
  induction evs with
  | nil =>
    intro evs' st h
    cases evs' with
    | nil => rfl
    | cons _ _ => simp at h
  | cons e rest ih =>
    intro evs' st h
    cases evs' with
    | nil => simp at h
    | cons e2 rest2 =>
      simp only [List.map_cons, List.cons.injEq] at h
      have hstep := chaosStep_ambient st e e2 h.1
      simp only [chaosTrace]
      rw [hstep.1, hstep.2, ih rest2 _ h.2]

/-- C1: two runs of the engine constructed from the same configuration
(hence the same seed), fed identical call sequences — identical up to the
ambient `Math.random()` values, which only set duplicate timer delays —
produce identical decision traces: the same drop, duplicate, delay, and
reorder decisions, with identical delay values and identical shuffle
permutations, because every decision draw comes from the seeded generator,
whose draws all lie in `[0, 1)`. -/
theorem chaos_trace_deterministic (p : ConfigPatch) (evs evs' : List (ChaosEvent α))
    (h : evs.map stripAmbientRandom = evs'.map stripAmbientRandom) :
    (chaosTrace (mkChaosProxy p) evs).2 = (chaosTrace (mkChaosProxy p) evs').2 ∧
    ∀ s : Nat, 0 ≤ (rngDraw s).1 ∧ (rngDraw s).1 < 1 :=
  ⟨chaosTrace_ambient evs evs' (mkChaosProxy p) h,
   fun s => ⟨rngDraw_nonneg s, rngDraw_lt_one s⟩⟩

/-- C1 witness: two one-call runs whose ambient `Math.random()` inputs
differ still produce the same decision trace. -/
theorem chaos_trace_deterministic_witness :
    (chaosTrace (α := Nat) (mkChaosProxy emptyPatch) [.send 7 (1/2)]).2 =
      (chaosTrace (mkChaosProxy emptyPatch) [.send 7 (1/3)]).2 ∧
    ∀ s : Nat, 0 ≤ (rngDraw s).1 ∧ (rngDraw s).1 < 1 :=
  chaos_trace_deterministic emptyPatch [.send 7 (1/2)] [.send 7 (1/3)] rfl

/-! ## C3: drop-rate extremes -/

theorem processSend_dropped_char (st : ChaosState) (a : α) (r : ℚ)
    (hen : st.config.enabled = true)
    (hd : (rngDraw st.rng).1 < st.config.dropRate) :
    processSendMessage st a r =
      ({ st with
          rng := (rngDraw st.rng).2
          stats := { st.stats with
            sent := st.stats.sent + 1
            dropped := st.stats.dropped + 1 } },
       { result := none, sentNow := false, dupDelay := none }) := by
  simp [processSendMessage, hen, hd]

theorem processSend_notDropped_char (st : ChaosState) (a : α) (r : ℚ)
    (hen : st.config.enabled = true)
    (hd : ¬ (rngDraw st.rng).1 < st.config.dropRate) :
    (processSendMessage st a r).1.config = st.config ∧
    (processSendMessage st a r).1.stats.dropped = st.stats.dropped ∧
    (processSendMessage st a r).2.sentNow = true ∧
    (processSendMessage st a r).2.result = some a := by
  by_cases hq : (rngDraw (rngDraw st.rng).2).1 < st.config.duplicateRate <;>
    simp [processSendMessage, hen, hd, hq]

theorem runSends_dropRate_one (calls : List (α × ℚ)) :
    ∀ st : ChaosState, st.config.enabled = true → st.config.dropRate = 1 →
      (runSends st calls).1.stats.dropped = st.stats.dropped + calls.length ∧
      ((runSends st calls).2.map transportInvocations).sum = 0 ∧
      (runSends st calls).2.length = calls.length ∧
      ∀ o ∈ (runSends st calls).2, o.result = none ∧ o.sentNow = false := by
  induction calls with
  | nil => intro st hen hrate; simp [runSends]
  | cons c rest ih =>
    intro st hen hrate
    obtain ⟨a, r⟩ := c
    have hd : (rngDraw st.rng).1 < st.config.dropRate := by
      rw [hrate]; exact rngDraw_lt_one _
    have hps := processSend_dropped_char st a r hen hd
    have hrec := ih ({ st with
        rng := (rngDraw st.rng).2
        stats := { st.stats with
          sent := st.stats.sent + 1
          dropped := st.stats.dropped + 1 } }) hen hrate
    simp only [runSends, hps] at hrec ⊢
    refine ⟨?_, ?_, ?_, ?_⟩
    · rw [hrec.1]; dsimp; omega
    · simp [transportInvocations, hrec.2.1]
    · simp [hrec.2.2.1]
    · intro o ho
      rcases List.mem_cons.mp ho with h | h
      · subst h; exact ⟨rfl, rfl⟩
      · exact hrec.2.2.2 o h

theorem runSends_dropRate_zero (calls : List (α × ℚ)) :
    ∀ st : ChaosState, st.config.enabled = true → st.config.dropRate = 0 →
      (runSends st calls).1.stats.dropped = st.stats.dropped ∧
      (runSends st calls).2.length = calls.length ∧
      ∀ o ∈ (runSends st calls).2, o.sentNow = true ∧ o.result.isSome = true := by
  induction calls with
  | nil => intro st hen hrate; simp [runSends]
  | cons c rest ih =>
    intro st hen hrate
    obtain ⟨a, r⟩ := c
    have hd : ¬ (rngDraw st.rng).1 < st.config.dropRate := by
      rw [hrate]; exact not_lt.mpr (rngDraw_nonneg _)
    have hps := processSend_notDropped_char st a r hen hd
    have hrec := ih (processSendMessage st a r).1
      (by rw [hps.1]; exact hen) (by rw [hps.1]; exact hrate)
    simp only [runSends] at hrec ⊢
    refine ⟨?_, ?_, ?_⟩
    · rw [hrec.1, hps.2.1]
    · simp [hrec.2.1]
    · intro o ho
      rcases List.mem_cons.mp ho with h | h
      · subst h; exact ⟨hps.2.2.1, by rw [hps.2.2.2]; rfl⟩
      · exact hrec.2.2 o h

/-- C3: with chaos enabled and `dropRate = 1.0` every `processSendMessage`
call increments `dropped`, returns null and never reaches the transport
(zero synchronous or duplicate `sendFn` invocations over any call
sequence); with `dropRate = 0.0` no call is ever dropped and `sendFn` is
invoked on every call — relying on every draw lying in `[0,1)` and the
comparison being strict. -/
theorem dropRate_extremes (st : ChaosState) (calls : List (α × ℚ))
    (hen : st.config.enabled = true) :
    (st.config.dropRate = 1 →
      (runSends st calls).1.stats.dropped = st.stats.dropped + calls.length ∧
      ((runSends st calls).2.map transportInvocations).sum = 0 ∧
      (runSends st calls).2.length = calls.length ∧
      ∀ o ∈ (runSends st calls).2, o.result = none ∧ o.sentNow = false) ∧
    (st.config.dropRate = 0 →
      (runSends st calls).1.stats.dropped = st.stats.dropped ∧
      (runSends st calls).2.length = calls.length ∧
      ∀ o ∈ (runSends st calls).2, o.sentNow = true ∧ o.result.isSome = true) :=
  ⟨fun h => runSends_dropRate_one calls st hen h,
   fun h => runSends_dropRate_zero calls st hen h⟩

/-- C3 witness: a two-call run with `dropRate = 1` drops everything and
never invokes the transport. -/
theorem dropRate_extremes_witness :
    ((runSends (α := Nat) (mkChaosProxy { emptyPatch with dropRate := some 1 })
        [(7, 0), (8, 0)]).1.stats.dropped
      = (mkChaosProxy { emptyPatch with dropRate := some 1 }).stats.dropped + 2 ∧
     ((runSends (α := Nat) (mkChaosProxy { emptyPatch with dropRate := some 1 })
        [(7, 0), (8, 0)]).2.map transportInvocations).sum = 0 ∧
     (runSends (α := Nat) (mkChaosProxy { emptyPatch with dropRate := some 1 })
        [(7, 0), (8, 0)]).2.length = 2 ∧
     ∀ o ∈ (runSends (α := Nat) (mkChaosProxy { emptyPatch with dropRate := some 1 })
        [(7, 0), (8, 0)]).2, o.result = none ∧ o.sentNow = false) :=
  (dropRate_extremes (mkChaosProxy { emptyPatch with dropRate := some 1 })
    [(7, 0), (8, 0)] rfl).1 rfl

/-! ## C4: per-source sequence numbers -/

theorem runUtilOps_seq (s : String) (ops : List UtilOp) :
    ∀ ctrs : SeqCounters, (∀ n, UtilOp.reset n ∈ ops → n ≠ s) →
      (((runUtilOps ctrs ops).1.filter (fun e => e.sourceNode == s)).map
          MessageEnvelope.sequenceNumber)
        = List.range' (ctrs s + 1)
            (ops.countP (fun op => match op with
              | .create c => c.sourceNode == s
              | .reset _ => false)) := by
  induction ops with
  | nil => intro ctrs _; simp [runUtilOps]
  | cons op rest ih =>
    intro ctrs h
    have hrest : ∀ n, UtilOp.reset n ∈ rest → n ≠ s :=
      fun n hn => h n (List.mem_cons_of_mem _ hn)
    cases op with
    | create c =>
      by_cases hc : c.sourceNode = s
      · subst hc
        have hctr : (fun t => if t = c.sourceNode then ctrs c.sourceNode + 1 else ctrs t)
            c.sourceNode = ctrs c.sourceNode + 1 := by simp
        have hrec := ih (fun t => if t = c.sourceNode then ctrs c.sourceNode + 1 else ctrs t) hrest
        rw [hctr] at hrec
        simp only [runUtilOps, createMessage, List.countP_cons, List.filter_cons,
          List.map_cons]
        simp [hrec, List.range'_succ]
      · have hsc : ¬ s = c.sourceNode := fun h' => hc h'.symm
        have hne : ¬ (c.sourceNode == s) = true := by simpa using hc
        have hctr : (fun t => if t = c.sourceNode then ctrs c.sourceNode + 1 else ctrs t) s
            = ctrs s := by simp [hsc]
        have hrec := ih (fun t => if t = c.sourceNode then ctrs c.sourceNode + 1 else ctrs t) hrest
        rw [hctr] at hrec
        simp only [runUtilOps, createMessage, List.countP_cons, List.filter_cons,
          List.map_cons]
        simp [hne, hrec]
    | reset node =>
      have hns : node ≠ s := h node (List.mem_cons_self _ _)
      have hsn : ¬ s = node := fun h' => hns h'.symm
      have hctr : resetSequenceCounter ctrs node s = ctrs s := by
        simp [resetSequenceCounter, hsn]
      have hrec := ih (resetSequenceCounter ctrs node) hrest
      rw [hctr] at hrec
      simp only [runUtilOps, List.countP_cons]
      simp [hrec]

/-- C4: starting from a fresh allocator, any sequence of `createMessage`
calls (interleaved with resets of other nodes only) assigns to the calls
whose source is `s` the sequence numbers `1, 2, ..., N` exactly in order —
no gaps, no repeats — and calls for other source nodes do not affect `s`'s
counter. -/
theorem createMessage_sequence (ops : List UtilOp) (s : String)
    (hreset : ∀ n, UtilOp.reset n ∈ ops → n ≠ s) :
    (((runUtilOps initCounters ops).1.filter (fun e => e.sourceNode == s)).map
        MessageEnvelope.sequenceNumber)
      = List.range' 1 (ops.countP (fun op => match op with
          | .create c => c.sourceNode == s
          | .reset _ => false)) :=
  runUtilOps_seq s ops initCounters hreset

/-- C4 witness: two creates for node `n`, another node's create and a reset
of another node interleaved, yield sequence numbers `[1, 2]`. -/
theorem createMessage_sequence_witness :
    (((runUtilOps initCounters
        [.create { sourceNode := "n", messageType := "HEARTBEAT", payload := .jnull,
                   destinationNode := none, uuid := "u1", now := 0 },
         .create { sourceNode := "m", messageType := "HEARTBEAT", payload := .jnull,
                   destinationNode := none, uuid := "u2", now := 1 },
         .reset "m",
         .create { sourceNode := "n", messageType := "COMMAND", payload := .jnum 3,
                   destinationNode := some "g", uuid := "u3", now := 2 }]).1.filter
        (fun e => e.sourceNode == "n")).map MessageEnvelope.sequenceNumber)
      = List.range' 1 2 := by
  have h := createMessage_sequence
    [.create { sourceNode := "n", messageType := "HEARTBEAT", payload := .jnull,
               destinationNode := none, uuid := "u1", now := 0 },
     .create { sourceNode := "m", messageType := "HEARTBEAT", payload := .jnull,
               destinationNode := none, uuid := "u2", now := 1 },
     .reset "m",
     .create { sourceNode := "n", messageType := "COMMAND", payload := .jnum 3,
               destinationNode := some "g", uuid := "u3", now := 2 }] "n"
    (by
      intro n hn
      simp only [List.mem_cons, List.not_mem_nil, or_false] at hn
      rcases hn with h1 | h1 | h1 | h1
      · exact absurd h1 (by simp)
      · exact absurd h1 (by simp)
      · injection h1 with h2; subst h2; decide
      · exact absurd h1 (by simp))
  exact h

/-! ## C5: bounded seen-set -/

theorem handleMessageSeen_bound (seen : List JSValue) (r : InboundRecord)
    (h : seen.length ≤ 10000) : (handleMessageSeen seen r).length ≤ 10000 := by
  cases r with
  | noValue => exact h
  | malformed => exact h
  | parsed e =>
    cases hv : validateMessage e with
    | none => simp [handleMessageSeen, hv, h]
    | some b =>
      cases b with
      | false => simp [handleMessageSeen, hv, h]
      | true =>
        cases hid : e.messageId with
        | none => simp [handleMessageSeen, hv, hid, h]
        | some idv =>
          simp only [handleMessageSeen, hv, hid]
          by_cases hdup : seen.any (jsSameValue idv) = true
          · rw [if_pos hdup]; exact h
          · rw [if_neg hdup]
            split_ifs with hlen
            · simp only [gt_iff_lt, List.length_append, List.length_cons,
                List.length_nil] at hlen
              simp only [List.length_drop, List.length_append, List.length_cons,
                List.length_nil]
              omega
            · simp only [gt_iff_lt, not_lt, List.length_append, List.length_cons,
                List.length_nil] at hlen ⊢
              omega

/-- C5: the consumer's seen-set never exceeds its capacity of 10000 entries
after any processed message: the bound is an invariant preserved by every
`handleMessage` call (when an insertion pushes the size past the capacity a
batch of the 1000 oldest-inserted ids is evicted), so processing any number
of records from a state within the bound never leaves the seen-set above
it. -/
theorem seenSet_bounded (seen : List JSValue) (msgs : List InboundRecord)
    (h : seen.length ≤ 10000) :
    (msgs.foldl handleMessageSeen seen).length ≤ 10000 := by
  induction msgs generalizing seen with
  | nil => simpa using h
  | cons m rest ih =>
    simpa [List.foldl_cons] using ih (handleMessageSeen seen m)
      (handleMessageSeen_bound seen m h)

/-- C5 witness: processing one valid record from the empty seen-set stays
within the bound. -/
theorem seenSet_bounded_witness :
    ([] : List JSValue).length ≤ 10000 ∧
    ([InboundRecord.parsed
        { messageId := some (.jstr "m1")
          sequenceNumber := some (.jnum 1)
          sourceNode := some (.jstr "node-a")
          destinationNode := some (.jstr "")
          messageType := some (.jstr "HEARTBEAT")
          timestamp := some (.jnum 0)
          payload := some (.jstr "hi")
          checksum := some (.jstr "1107df") }].foldl
        handleMessageSeen ([] : List JSValue)).length ≤ 10000 :=
  ⟨by decide,
   seenSet_bounded []
     [InboundRecord.parsed
        { messageId := some (.jstr "m1")
          sequenceNumber := some (.jnum 1)
          sourceNode := some (.jstr "node-a")
          destinationNode := some (.jstr "")
          messageType := some (.jstr "HEARTBEAT")
          timestamp := some (.jnum 0)
          payload := some (.jstr "hi")
          checksum := some (.jstr "1107df") }] (by decide)⟩

/-! ## C6: duplicate scheduling -/

/-- C6: with chaos enabled, when the message is not dropped and the second
draw is below `duplicateRate`, the `duplicated` counter is incremented and a
second `sendFn` invocation is scheduled (without blocking the return) after
a delay `max(1, 50 + Math.random()*200)`, which lies in `[50, 250)` for any
ambient random value in `[0, 1)`; the detached duplicate attempt catches and
logs any failure and never propagates it, and the original send's result is
returned unchanged. -/
theorem duplicate_send_scheduling (st : ChaosState) (a : α) (r : ℚ)
    (hen : st.config.enabled = true)
    (hnodrop : ¬ (rngDraw st.rng).1 < st.config.dropRate)
    (hdup : (rngDraw (rngDraw st.rng).2).1 < st.config.duplicateRate)
    (hr0 : 0 ≤ r) (hr1 : r < 1) :
    (processSendMessage st a r).1.stats.duplicated = st.stats.duplicated + 1 ∧
    (processSendMessage st a r).2.dupDelay = some (max 1 (50 + r * 200)) ∧
    (50 ≤ max (1 : ℚ) (50 + r * 200) ∧ max (1 : ℚ) (50 + r * 200) < 250) ∧
    (processSendMessage st a r).2.result = some a ∧
    (processSendMessage st a r).2.sentNow = true ∧
    ∀ (ε β : Type) (f : Unit → Except ε β), (duplicateTask f).isOk = true := by
  have hmax : max (1 : ℚ) (50 + r * 200) = 50 + r * 200 :=
    max_eq_right (by linarith)
  refine ⟨?_, ?_, ⟨?_, ?_⟩, ?_, ?_, ?_⟩
  · simp [processSendMessage, hen, hnodrop, hdup]
  · simp [processSendMessage, hen, hnodrop, hdup]
  · rw [hmax]; linarith
  · rw [hmax]; linarith
  · simp [processSendMessage, hen, hnodrop, hdup]
  · simp [processSendMessage, hen, hnodrop, hdup]
  · intro ε β f
    unfold duplicateTask
    cases f () <;> rfl

/-- C6 witness: with `dropRate = 0` and `duplicateRate = 1` the first call
duplicates, with the ambient random value 0 giving the minimum delay 50. -/
theorem duplicate_send_scheduling_witness :
    (processSendMessage (α := Nat)
        (mkChaosProxy { emptyPatch with dropRate := some 0, duplicateRate := some 1 })
        7 0).1.stats.duplicated
      = (mkChaosProxy { emptyPatch with dropRate := some 0, duplicateRate := some 1 }).stats.duplicated + 1 ∧
    (processSendMessage (α := Nat)
        (mkChaosProxy { emptyPatch with dropRate := some 0, duplicateRate := some 1 })
        7 0).2.dupDelay = some (max 1 (50 + 0 * 200)) ∧
    (50 ≤ max (1 : ℚ) (50 + 0 * 200) ∧ max (1 : ℚ) (50 + 0 * 200) < 250) ∧
    (processSendMessage (α := Nat)
        (mkChaosProxy { emptyPatch with dropRate := some 0, duplicateRate := some 1 })
        7 0).2.result = some 7 ∧
    (processSendMessage (α := Nat)
        (mkChaosProxy { emptyPatch with dropRate := some 0, duplicateRate := some 1 })
        7 0).2.sentNow = true ∧
    ∀ (ε β : Type) (f : Unit → Except ε β), (duplicateTask f).isOk = true :=
  duplicate_send_scheduling
    (mkChaosProxy { emptyPatch with dropRate := some 0, duplicateRate := some 1 })
    7 0 rfl
    (not_lt.mpr (rngDraw_nonneg _))
    (rngDraw_lt_one _)
    (le_refl 0) zero_lt_one

/-! ## C8: helper lemmas on swapping and shuffling -/

theorem cons_set_perm (x b : α) : ∀ (t : List α) (k : Nat), t.get? k = some b →
    (b :: t.set k x).Perm (x :: t) := by
  intro t
  induction t with
  | nil => intro k h; simp at h
  | cons y t' ih =>
    intro k h
    cases k with
    | zero =>
      simp only [List.get?] at h
      injection h with h'
      subst h'
      exact List.Perm.swap x y t'
    | succ k' =>
      simp only [List.get?] at h
      simp only [List.set]
      exact (List.Perm.swap y b _).trans (((ih k' h).cons y).trans (List.Perm.swap x y t'))

theorem set_set_swap_perm : ∀ (l : List α) (i j : Nat) (a b : α),
    l.get? i = some a → l.get? j = some b → ((l.set i b).set j a).Perm l := by
  intro l
  induction l with
  | nil => intro i j a b hi _; simp at hi
  | cons x t ih =>
    intro i j a b hi hj
    cases i with
    | zero =>
      simp only [List.get?] at hi
      injection hi with hi'
      cases j with
      | zero =>
        simp only [List.get?] at hj
        injection hj with hj'
        simp only [List.set]
        rw [← hi']
      | succ j' =>
        simp only [List.get?] at hj
        simp only [List.set]
        rw [← hi']
        exact cons_set_perm x b t j' hj
    | succ i' =>
      simp only [List.get?] at hi
      cases j with
      | zero =>
        simp only [List.get?] at hj
        injection hj with hj'
        simp only [List.set]
        rw [← hj']
        exact cons_set_perm x a t i' hi
      | succ j' =>
        simp only [List.get?] at hj
        simp only [List.set]
        exact (ih i' j' a b hi hj).cons x

theorem listSwap_perm (l : List α) (i j : Nat) : (listSwap l i j).Perm l := by
  unfold listSwap
  cases hi : l.get? i with
  | none => exact List.Perm.refl l
  | some a =>
    cases hj : l.get? j with
    | none => exact List.Perm.refl l
    | some b => exact set_set_swap_perm l i j a b hi hj

theorem fyLoop_perm : ∀ (i : Nat) (arr : List α) (rng : Nat),
    (fyLoop arr i rng).1.Perm arr := by
  intro i
  induction i with
  | zero => intro arr rng; exact List.Perm.refl arr
  | succ i' ih =>
    intro arr rng
    exact (ih _ _).trans (listSwap_perm arr (i' + 1) _)

theorem fisherYates_perm (rng : Nat) (l : List α) : (fisherYates rng l).1.Perm l :=
  fyLoop_perm _ l rng

theorem deliverLoop_envs (cfg : ChaosConfig) :
    ∀ (l : List MessageEnvelope) (rng : Nat) (stats : MessageStats),
      ((deliverLoop cfg rng stats l).1.map Dispatch.env) = l := by
  intro l
  induction l with
  | nil => intro rng stats; rfl
  | cons e rest ih =>
    intro rng stats
    by_cases hd : (calculateDelay cfg rng).1 > 0 <;>
      simp [deliverLoop, hd, ih]

theorem deliverLoop_reordered (cfg : ChaosConfig) :
    ∀ (l : List MessageEnvelope) (rng : Nat) (stats : MessageStats),
      ((deliverLoop cfg rng stats l).2.2).reordered = stats.reordered := by
  intro l
  induction l with
  | nil => intro rng stats; rfl
  | cons e rest ih =>
    intro rng stats
    by_cases hd : (calculateDelay cfg rng).1 > 0 <;>
      simp [deliverLoop, hd, ih]

theorem mismatchAux_eq_false_iff :
    ∀ (s o : List MessageEnvelope), s.length = o.length →
      (mismatchAux s o = false ↔
        s.map MessageEnvelope.messageId = o.map MessageEnvelope.messageId) := by
  intro s
  induction s with
  | nil =>
    intro o h
    cases o with
    | nil => simp [mismatchAux]
    | cons _ _ => simp at h
  | cons a as ih =>
    intro o h
    cases o with
    | nil => simp at h
    | cons b bs =>
      simp only [List.length_cons] at h
      have h' : as.length = bs.length := by omega
      simp only [mismatchAux, Bool.or_eq_false_iff, bne_eq_false_iff_eq,
        List.map_cons, List.cons.injEq]
      rw [ih bs h']

theorem eq_of_perm_of_map_eq {f : β → γ} :
    ∀ (l₁ l₂ : List β), l₁.Perm l₂ → l₁.map f = l₂.map f →
      (l₂.map f).Nodup → l₁ = l₂ := by
  intro l₁
  induction l₁ with
  | nil =>
    intro l₂ hp _ _
    exact hp.nil_eq
  | cons a t ih =>
    intro l₂ hp hm hd
    cases l₂ with
    | nil => exact absurd (List.perm_nil.mp hp) (by simp)
    | cons b u =>
      simp only [List.map_cons, List.cons.injEq] at hm
      obtain ⟨hab, htu⟩ := hm
      simp only [List.map_cons, List.nodup_cons] at hd
      obtain ⟨hbnot, hdu⟩ := hd
      have hmem : a ∈ b :: u := hp.subset (List.mem_cons_self a t)
      have hab' : a = b := by
        rcases List.mem_cons.mp hmem with h | h
        · exact h
        · exact absurd (hab ▸ List.mem_map_of_mem f h) hbnot
      subst hab'
      have htp : t.Perm u := hp.cons_inv
      rw [ih u htp htu hdu]

theorem processRecv_buffering (st : ChaosState) (env : MessageEnvelope)
    (hen : st.config.enabled = true)
    (hw : 0 < st.config.reorderWindow)
    (hlt : st.messageBuffer.length + 1 < st.config.reorderWindow) :
    processReceiveMessage st env =
      ({ st with
          messageBuffer := st.messageBuffer ++ [env]
          stats := { st.stats with received := st.stats.received + 1 } }, []) := by
  simp [processReceiveMessage, hen, hw]
  intro h
  exact absurd h (by omega)

theorem processRecv_flushing (st : ChaosState) (env : MessageEnvelope)
    (hen : st.config.enabled = true)
    (hw : 0 < st.config.reorderWindow)
    (hge : st.messageBuffer.length + 1 ≥ st.config.reorderWindow) :
    processReceiveMessage st env =
      flushReorderBuffer
        { st with
            messageBuffer := st.messageBuffer ++ [env]
            stats := { st.stats with received := st.stats.received + 1 } } := by
  have hge' : (st.messageBuffer ++ [env]).length ≥ st.config.reorderWindow := by
    simp only [List.length_append, List.length_cons, List.length_nil]
    omega
  simp [processReceiveMessage, hen, hw, hge']
  intro h
  exact absurd h (by omega)

theorem runRecvs_flush : ∀ (envs : List MessageEnvelope) (st : ChaosState),
    st.config.enabled = true →
    st.config.reorderWindow = st.messageBuffer.length + envs.length →
    envs ≠ [] →
    runRecvs st envs =
      flushReorderBuffer
        { st with
            messageBuffer := st.messageBuffer ++ envs
            stats := { st.stats with received := st.stats.received + envs.length } } := by
  intro envs
  induction envs with
  | nil => intro st _ _ hne; exact absurd rfl hne
  | cons e rest ih =>
    intro st hen hw hne
    cases rest with
    | nil =>
      have hw0 : 0 < st.config.reorderWindow := by
        simp only [List.length_cons, List.length_nil] at hw; omega
      have hge : st.messageBuffer.length + 1 ≥ st.config.reorderWindow := by
        simp only [List.length_cons, List.length_nil] at hw; omega
      have hps := processRecv_flushing st e hen hw0 hge
      simp only [runRecvs, hps, List.append_nil, List.length_cons, List.length_nil,
        Nat.zero_add]
    | cons e2 rest2 =>
      have hw0 : 0 < st.config.reorderWindow := by
        simp only [List.length_cons] at hw; omega
      have hlt : st.messageBuffer.length + 1 < st.config.reorderWindow := by
        simp only [List.length_cons] at hw; omega
      have hps := processRecv_buffering st e hen hw0 hlt
      have hrec := ih ({ st with
          messageBuffer := st.messageBuffer ++ [e]
          stats := { st.stats with received := st.stats.received + 1 } })
        hen
        (by simp only [List.length_append, List.length_cons, List.length_nil] at hw ⊢; omega)
        (by simp)
      have step1 : runRecvs st (e :: e2 :: rest2)
          = runRecvs ({ st with
              messageBuffer := st.messageBuffer ++ [e]
              stats := { st.stats with received := st.stats.received + 1 } })
            (e2 :: rest2) := by
        show (let p := processReceiveMessage st e
              let t := runRecvs p.1 (e2 :: rest2)
              (t.1, p.2 ++ t.2)) = _
        rw [hps]
        simp
      rw [step1, hrec]
      congr 1
      simp only [List.append_assoc, List.singleton_append, List.cons_append,
        List.length_cons]
      congr 2
      omega

theorem flushReorderBuffer_char (st : ChaosState) (hne : st.messageBuffer ≠ []) :
    ((flushReorderBuffer st).2.map Dispatch.env) = (fisherYates st.rng st.messageBuffer).1 ∧
    (flushReorderBuffer st).1.messageBuffer = [] ∧
    (flushReorderBuffer st).1.stats.reordered
      = st.stats.reordered +
        (if mismatchAux (fisherYates st.rng st.messageBuffer).1 st.messageBuffer
         then st.messageBuffer.length else 0) := by
  have hlen : ¬ st.messageBuffer.length = 0 := by simpa using hne
  unfold flushReorderBuffer
  rw [if_neg hlen]
  dsimp only
  refine ⟨deliverLoop_envs _ _ _ _, rfl, ?_⟩
  rw [deliverLoop_reordered]
  by_cases hm : mismatchAux (fisherYates st.rng st.messageBuffer).1 st.messageBuffer = true
  · rw [if_pos hm, if_pos hm]
    show st.stats.reordered + (fisherYates st.rng st.messageBuffer).1.length
      = st.stats.reordered + st.messageBuffer.length
    rw [(fisherYates_perm st.rng st.messageBuffer).length_eq]
  · rw [if_neg hm, if_neg hm]
    exact (Nat.add_zero _).symm

/-- C8: with chaos enabled and `reorderWindow > 0`, feeding exactly
`reorderWindow` distinct envelopes into an empty buffer triggers exactly one
flush: the handler is dispatched exactly once per buffered envelope, the
delivered sequence is the seeded Fisher–Yates shuffle of the arrivals (hence
the delivered multiset equals the buffered multiset), the buffer is empty
afterwards, and the `reordered` counter grows by the full batch size exactly
when some position changed relative to arrival order. -/
theorem reorder_flush_conservation (st : ChaosState) (envs : List MessageEnvelope)
    (hen : st.config.enabled = true)
    (hw : st.config.reorderWindow = envs.length)
    (hne : envs ≠ [])
    (hbuf : st.messageBuffer = [])
    (hnodup : (envs.map MessageEnvelope.messageId).Nodup) :
    ((runRecvs st envs).2.map Dispatch.env) = (fisherYates st.rng envs).1 ∧
    ((runRecvs st envs).2.map Dispatch.env).Perm envs ∧
    (runRecvs st envs).1.messageBuffer = [] ∧
    ((fisherYates st.rng envs).1.map MessageEnvelope.messageId
        = envs.map MessageEnvelope.messageId
      ↔ (fisherYates st.rng envs).1 = envs) ∧
    (runRecvs st envs).1.stats.reordered
      = st.stats.reordered +
        (if (fisherYates st.rng envs).1.map MessageEnvelope.messageId
            = envs.map MessageEnvelope.messageId
         then 0 else envs.length) := by
  have hacc := runRecvs_flush envs st hen
    (by rw [hbuf]; simpa using hw) hne
  set S : ChaosState := { st with
      messageBuffer := st.messageBuffer ++ envs
      stats := { st.stats with received := st.stats.received + envs.length } } with hS
  have hSbuf : S.messageBuffer = envs := by
    show st.messageBuffer ++ envs = envs
    rw [hbuf]
    exact List.nil_append envs
  have hSne : S.messageBuffer ≠ [] := by rw [hSbuf]; exact hne
  have hf := flushReorderBuffer_char S hSne
  rw [hSbuf] at hf
  have hSrng : S.rng = st.rng := rfl
  have hSreo : S.stats.reordered = st.stats.reordered := rfl
  rw [hSrng, hSreo] at hf
  have hperm : ((fisherYates st.rng envs).1).Perm envs := fisherYates_perm st.rng envs
  have hiff := mismatchAux_eq_false_iff (fisherYates st.rng envs).1 envs hperm.length_eq
  have hmapiff : (fisherYates st.rng envs).1.map MessageEnvelope.messageId
      = envs.map MessageEnvelope.messageId ↔ (fisherYates st.rng envs).1 = envs :=
    ⟨fun h => eq_of_perm_of_map_eq _ _ hperm h hnodup, fun h => by rw [h]⟩
  have hcond : (if mismatchAux (fisherYates st.rng envs).1 envs then envs.length else 0)
      = (if (fisherYates st.rng envs).1.map MessageEnvelope.messageId
            = envs.map MessageEnvelope.messageId
         then 0 else envs.length) := by
    by_cases hmap : (fisherYates st.rng envs).1.map MessageEnvelope.messageId
        = envs.map MessageEnvelope.messageId
    · have hfalse : mismatchAux (fisherYates st.rng envs).1 envs = false := hiff.mpr hmap
      simp [hfalse, hmap]
    · have hm : mismatchAux (fisherYates st.rng envs).1 envs = true := by
        cases hb : mismatchAux (fisherYates st.rng envs).1 envs
        · exact absurd (hiff.mp hb) hmap
        · rfl
      simp [hm, hmap]
  rw [hacc]
  exact ⟨hf.1, hf.1 ▸ hperm, hf.2.1, hmapiff, by rw [hf.2.2, hcond]⟩

/-- C8 witness: window 2, two distinct envelopes, instantiating the flush
conservation theorem. -/
theorem reorder_flush_conservation_witness :
    ((runRecvs sampleWindowProxy sampleBatch).2.map Dispatch.env)
      = (fisherYates sampleWindowProxy.rng sampleBatch).1 ∧
    ((runRecvs sampleWindowProxy sampleBatch).2.map Dispatch.env).Perm sampleBatch ∧
    (runRecvs sampleWindowProxy sampleBatch).1.messageBuffer = [] ∧
    ((fisherYates sampleWindowProxy.rng sampleBatch).1.map MessageEnvelope.messageId
        = sampleBatch.map MessageEnvelope.messageId
      ↔ (fisherYates sampleWindowProxy.rng sampleBatch).1 = sampleBatch) ∧
    (runRecvs sampleWindowProxy sampleBatch).1.stats.reordered
      = sampleWindowProxy.stats.reordered +
        (if (fisherYates sampleWindowProxy.rng sampleBatch).1.map MessageEnvelope.messageId
            = sampleBatch.map MessageEnvelope.messageId
         then 0 else sampleBatch.length) :=
  reorder_flush_conservation sampleWindowProxy sampleBatch
    rfl rfl (List.cons_ne_nil _ _) rfl (by decide)

end OpsSim
